import Mathlib

/-!
Verification of the coordinate-resolution core of the Clubcourt travel-time
repository. The TypeScript sources (src/lib/types.ts, src/lib/cache.ts,
src/lib/rate-limit.ts, src/lib/google-maps.ts and the travel POST handler)
are shallowly embedded: JS numbers are modelled as rationals, `Date.now()`
as an explicit `now : Nat` parameter, the `Map`-backed caches as association
lists, and the three coordinate regexes as explicit left-to-right scanners
with the same greedy/backtracking behaviour.  Network effects (fetch,
geocoding, distance-matrix calls) are supplied by an oracle environment.
-/

set_option maxRecDepth 100000

namespace Clubcourt

/-! ## Character and string utilities (JS primitives) -/

/-- The regex class `\d`. -/
def isDigitC (c : Char) : Bool := '0' ≤ c && c ≤ '9'

/-- The regex class `\s`, restricted to its ASCII members (space, tab,
newline, carriage return, vertical tab, form feed). -/
def isSpaceC (c : Char) : Bool :=
  c = ' ' || c = '\t' || c = '\n' || c = '\r' || c = '\x0b' || c = '\x0c'

def isAlphaC (c : Char) : Bool :=
  ('a' ≤ c && c ≤ 'z') || ('A' ≤ c && c ≤ 'Z')

/-- Characters allowed after the first character of a URL scheme. -/
def isSchemeC (c : Char) : Bool :=
  isAlphaC c || isDigitC c || c = '+' || c = '-' || c = '.'

/-- `String.prototype.toLowerCase` (ASCII-relevant part). -/
def jsToLower (s : String) : String := String.mk (s.data.map Char.toLower)

def jsTrimList (cs : List Char) : List Char :=
  ((cs.dropWhile isSpaceC).reverse.dropWhile isSpaceC).reverse

/-- `String.prototype.trim` over the ASCII whitespace set. -/
def jsTrim (s : String) : String := String.mk (jsTrimList s.data)

/-- Numeric value of a digit string (most significant digit first). -/
def natValD (cs : List Char) : Nat :=
  cs.foldl (fun a c => 10 * a + (c.toNat - 48)) 0

def digitChar (n : Nat) : Char := Char.ofNat (48 + n)

def natDigitsAux : Nat → Nat → List Char
  | 0, _ => []
  | _ + 1, 0 => []
  | fuel + 1, n => natDigitsAux fuel (n / 10) ++ [digitChar (n % 10)]

/-- Decimal rendering of a natural number. -/
def natToStr (n : Nat) : String :=
  if n = 0 then "0" else String.mk (natDigitsAux n n)

/-- Left-pad with `'0'` to the given width (used by `toFixed`). -/
def padZeros (width : Nat) (s : String) : String :=
  String.mk (List.replicate (width - s.data.length) '0') ++ s

/-! ## Regex scanners

The source uses three regexes (src/lib/types.ts lines 31-33):
  `AT_COORDINATES_REGEX  = /@(-?\d{1,3}(?:\.\d+)?),(-?\d{1,3}(?:\.\d+)?)/`
  `EMBED_COORDINATES_REGEX = /!3d(-?\d{1,3}(?:\.\d+)?)!4d(-?\d{1,3}(?:\.\d+)?)/`
  `LAT_LNG_PAIR_REGEX = /(-?\d{1,3}(?:\.\d+)?)\s*,\s*(-?\d{1,3}(?:\.\d+)?)/`
`String.match` without the `g` flag returns the leftmost match.  We embed
each as a scanner that tries every start position left to right.  The
number atom `-?\d{1,3}(?:\.\d+)?` is embedded via `numAlternatives`, which
returns every backtracking alternative of the atom in the engine's
preference order: the greedy `\d{1,3}` takes up to three digits of the run
and backtracks to fewer (so on a run longer than three digits the atom
still matches its first three), and for each digit choice the optional
fraction group is tried with the longest `\d+`, shorter ones, and finally
without the group.  A consumer mid-pattern applies its continuation down
the list; a consumer in pattern-final position takes the head. -/

/-- Split a maximal run of `\d` off the front. -/
def takeDigits : List Char → List Char × List Char
  | [] => ([], [])
  | c :: cs =>
    if isDigitC c then
      let p := takeDigits cs
      (c :: p.1, p.2)
    else ([], c :: cs)

/-- Backtracking alternatives of `\d{1,3}` against the maximal digit run
`run` (followed by `rest`): take `min 3 |run|` digits first, down to one;
each alternative is (consumed digits, remaining input). -/
def intAlternatives (run rest : List Char) : List (List Char × List Char) :=
  (List.range (min 3 run.length)).map (fun i =>
    let k := min 3 run.length - i
    (run.take k, run.drop k ++ rest))

/-- Backtracking alternatives of `(?:\.\d+)?` at the head of `rest`: the
fraction with the greedy `\d+`, then shorter fractions, then the group
skipped; each alternative is (consumed characters, remaining input). -/
def fracAlternatives (rest : List Char) : List (List Char × List Char) :=
  match rest with
  | '.' :: r2 =>
    let fs := takeDigits r2
    if fs.1 = [] then [([], rest)]
    else
      ((List.range fs.1.length).map (fun i =>
        let j := fs.1.length - i
        ('.' :: fs.1.take j, fs.1.drop j ++ fs.2))) ++ [([], rest)]
  | _ => [([], rest)]

/-- The optional leading `-?`: consumed characters and the remainder. -/
def jsSplitSignChars (cs : List Char) : List Char × List Char :=
  match cs with
  | [] => ([], [])
  | c :: t => if c = '-' then (['-'], t) else ([], c :: t)

/-- Backtracking alternatives of `-?\d{1,3}(?:\.\d+)?` anchored at the head
of the input: each alternative is (captured characters, remaining input),
listed in the order the regex engine prefers them (digit count descending,
within it the fraction longest-first then absent). -/
def numAlternatives (cs : List Char) : List (List Char × List Char) :=
  let sign : List Char × List Char := jsSplitSignChars cs
  let ds := takeDigits sign.2
  if ds.1 = [] then []
  else
    (intAlternatives ds.1 ds.2).flatMap (fun ia =>
      (fracAlternatives ia.2).map (fun fa => (sign.1 ++ ia.1 ++ fa.1, fa.2)))

/-- First alternative on which the continuation succeeds. -/
def firstAlt {α : Type} (f : List Char × List Char → Option α) :
    List (List Char × List Char) → Option α
  | [] => none
  | a :: rest =>
    match f a with
    | some x => some x
    | none => firstAlt f rest

/-- Match `(num),(num)` given the characters following a `'@'`. -/
def matchAtAfter (cs : List Char) : Option (List Char × List Char) :=
  firstAlt
    (fun la =>
      match la.2 with
      | ',' :: r2 =>
        match numAlternatives r2 with
        | ln :: _ => some (la.1, ln.1)
        | [] => none
      | _ => none)
    (numAlternatives cs)

/-- Leftmost match of `AT_COORDINATES_REGEX`; returns the two captures. -/
def scanAt : List Char → Option (List Char × List Char)
  | [] => none
  | '@' :: rest =>
    (match matchAtAfter rest with
     | some caps => some caps
     | none => scanAt rest)
  | _ :: rest => scanAt rest

/-- Match `(num)!4d(num)` given the characters following a `"!3d"`. -/
def matchEmbedAfter (cs : List Char) : Option (List Char × List Char) :=
  firstAlt
    (fun la =>
      match la.2 with
      | '!' :: '4' :: 'd' :: r2 =>
        match numAlternatives r2 with
        | ln :: _ => some (la.1, ln.1)
        | [] => none
      | _ => none)
    (numAlternatives cs)

/-- Leftmost match of `EMBED_COORDINATES_REGEX`; returns the two captures. -/
def scanEmbed : List Char → Option (List Char × List Char)
  | [] => none
  | '!' :: rest =>
    (match rest with
     | '3' :: 'd' :: cs =>
       match matchEmbedAfter cs with
       | some caps => some caps
       | none => scanEmbed rest
     | _ => scanEmbed rest)
  | _ :: rest => scanEmbed rest

/-- Match `(num)\s*,\s*(num)` anchored at the head of the input. -/
def matchPairHere (cs : List Char) : Option (List Char × List Char) :=
  firstAlt
    (fun la =>
      match la.2.dropWhile isSpaceC with
      | ',' :: r2 =>
        match numAlternatives (r2.dropWhile isSpaceC) with
        | ln :: _ => some (la.1, ln.1)
        | [] => none
      | _ => none)
    (numAlternatives cs)

/-- Leftmost match of `LAT_LNG_PAIR_REGEX`; returns the two captures. -/
def scanPair : List Char → Option (List Char × List Char)
  | [] => none
  | c :: rest =>
    match matchPairHere (c :: rest) with
    | some caps => some caps
    | none => scanPair rest

/-! ## JS number parsing and coordinate validation (src/lib/types.ts 35-57) -/

def jsSplitSign (cs : List Char) : Bool × List Char :=
  match cs with
  | [] => (false, [])
  | c :: t => if c = '-' then (true, t) else (false, c :: t)

def pow10 : Nat → Nat
  | 0 => 1
  | n + 1 => 10 * pow10 n

/-- Rational value of a sign / integer digits / fraction digits triple:
`±(ds + fs / 10 ^ |fs|)`, written over a common denominator so that the
value is built from a single exact integer division. -/
def ratOfParts (neg : Bool) (ds fs : List Char) : ℚ :=
  let mag : ℚ := Rat.divInt
    (Int.ofNat (natValD ds * pow10 fs.length + natValD fs))
    (Int.ofNat (pow10 fs.length))
  if neg then -mag else mag

/-- `Number(raw)` restricted to the decimal shapes the regex captures can
take (`-?digits(.digits?)?`); anything else is NaN, modelled as `none`. -/
def jsNumberCore (cs : List Char) : Option ℚ :=
  let sg := jsSplitSign cs
  let ds := takeDigits sg.2
  if ds.1 = [] then none
  else
    match ds.2 with
    | [] => some (ratOfParts sg.1 ds.1 [])
    | '.' :: r2 =>
      let fs := takeDigits r2
      if fs.2 = [] then some (ratOfParts sg.1 ds.1 fs.1) else none
    | _ => none

def jsNumber (s : String) : Option ℚ := jsNumberCore s.data

structure Coordinates where
  lat : ℚ
  lng : ℚ
  deriving DecidableEq, Repr

/-- Source `isValidCoordinates`; `Number.isFinite` always holds for a
rational produced by decimal parsing, leaving the range checks. -/
def isValidCoordinates (lat lng : ℚ) : Bool :=
  decide (-90 ≤ lat ∧ lat ≤ 90 ∧ -180 ≤ lng ∧ lng ≤ 180)

/-- Source `toCoordinates`. -/
def toCoordinates (latRaw lngRaw : String) : Option Coordinates :=
  match jsNumber latRaw, jsNumber lngRaw with
  | some lat, some lng =>
    if isValidCoordinates lat lng then some ⟨lat, lng⟩ else none
  | _, _ => none

/-- Source `parseLatLngPair`: first `LAT_LNG_PAIR_REGEX` match, validated. -/
def parseLatLngPair (raw : String) : Option Coordinates :=
  match scanPair raw.data with
  | some caps => toCoordinates (String.mk caps.1) (String.mk caps.2)
  | none => none

/-! ## Percent decoding

`decodeURIComponent` throws on a malformed escape (modelled as `none`),
while `URLSearchParams` decoding is lenient, leaving a malformed `%` in
place.  Escapes are modelled for single-byte (ASCII) sequences, which
covers every string this development evaluates. -/

def hexVal (c : Char) : Option Nat :=
  if isDigitC c then some (c.toNat - 48)
  else if 'a' ≤ c && c ≤ 'f' then some (c.toNat - 87)
  else if 'A' ≤ c && c ≤ 'F' then some (c.toNat - 55)
  else none

def percentDecodeStrict : List Char → Option (List Char)
  | [] => some []
  | '%' :: c1 :: c2 :: rest =>
    (match hexVal c1, hexVal c2 with
     | some h1, some h2 =>
       if h1 * 16 + h2 < 128 then
         (percentDecodeStrict rest).map (fun t => Char.ofNat (h1 * 16 + h2) :: t)
       else none
     | _, _ => none)
  | '%' :: _ => none
  | c :: rest => (percentDecodeStrict rest).map (fun t => c :: t)

def percentDecodeLenient : List Char → List Char
  | [] => []
  | '%' :: c1 :: c2 :: rest =>
    (match hexVal c1, hexVal c2 with
     | some h1, some h2 =>
       if h1 * 16 + h2 < 128 then
         Char.ofNat (h1 * 16 + h2) :: percentDecodeLenient rest
       else '%' :: percentDecodeLenient (c1 :: c2 :: rest)
     | _, _ => '%' :: percentDecodeLenient (c1 :: c2 :: rest))
  | '%' :: rest => '%' :: percentDecodeLenient rest
  | c :: rest => c :: percentDecodeLenient rest

/-- `decodeURIComponent`, `none` modelling the thrown `URIError`. -/
def decodeURIComponentM (s : String) : Option String :=
  (percentDecodeStrict s.data).map String.mk

/-- Source `safeDecode` (types.ts 113-119): fall back to the raw value. -/
def safeDecode (value : String) : String :=
  match decodeURIComponentM value with
  | some d => d
  | none => value

/-! ## URL model (the WHATWG `new URL` constructor, restricted)

Only the observations the source makes of a `URL` are modelled: `hostname`
(lowercased), `pathname`, the query string, and `searchParams.get`.
Special (`http`/`https`) URLs require an authority; other schemes carry an
opaque path.  Inputs without a valid scheme fail to parse, matching the
constructor throwing. -/

structure URLm where
  scheme : String
  hostname : String
  pathname : String
  search : String
  deriving DecidableEq, Repr

/-- Characters that make a host invalid (a practical subset of the WHATWG
forbidden-host code points). -/
def isForbiddenHostC (c : Char) : Bool :=
  c = ' ' || c = '#' || c = '%' || c = '/' || c = ':' || c = '?' || c = '@' ||
  c = '[' || c = ']' || c = '\\' || c = '^' || c = '<' || c = '>' || c = '|' ||
  c = '"' || c = '\t' || c = '\n' || c = '\r'

/-- Authority segment after the last `'@'` (strips userinfo). -/
def afterLastAt (cs : List Char) : List Char :=
  cs.foldl (fun acc c => if c = '@' then [] else acc ++ [c]) []

/-- Split path-and-beyond into (pathname, query), dropping any fragment. -/
def splitPathQuery (cs : List Char) : List Char × List Char :=
  let noFrag := cs.takeWhile (fun c => c ≠ '#')
  (noFrag.takeWhile (fun c => c ≠ '?'), (noFrag.dropWhile (fun c => c ≠ '?')).drop 1)

def parseAuthority (scheme : String) (cs : List Char) : Option URLm :=
  let auth := cs.takeWhile (fun c => c ≠ '/' && c ≠ '?' && c ≠ '#')
  let rest := cs.dropWhile (fun c => c ≠ '/' && c ≠ '?' && c ≠ '#')
  let hostport := afterLastAt auth
  let host := hostport.takeWhile (fun c => c ≠ ':')
  let port := (hostport.dropWhile (fun c => c ≠ ':')).drop 1
  if host = [] then none
  else if host.any isForbiddenHostC then none
  else if ¬ port.all isDigitC then none
  else
    let pq := splitPathQuery rest
    some { scheme := scheme
           hostname := jsToLower (String.mk host)
           pathname := if pq.1 = [] then "/" else String.mk pq.1
           search := String.mk pq.2 }

/-- The `new URL` constructor.  The input is trimmed and stripped of ASCII
tab/newline as the WHATWG parser does. -/
def parseURL (raw : String) : Option URLm :=
  let cs := (jsTrimList raw.data).filter (fun c => c ≠ '\t' && c ≠ '\n' && c ≠ '\r')
  match cs with
  | [] => none
  | c :: _ =>
    if ¬ isAlphaC c then none
    else
      let schemeCs := cs.takeWhile isSchemeC
      match cs.dropWhile isSchemeC with
      | ':' :: r2 =>
        let scheme := jsToLower (String.mk schemeCs)
        if scheme = "http" ∨ scheme = "https" then
          parseAuthority scheme (r2.dropWhile (fun c => c = '/' || c = '\\'))
        else
          let pq := splitPathQuery r2
          some { scheme := scheme, hostname := ""
                 pathname := String.mk pq.1, search := String.mk pq.2 }
      | _ => none

/-- Source `normalizeUrl` (google-maps.ts 47-53). -/
def normalizeUrl (raw : String) : Option URLm := parseURL (jsTrim raw)

/-- Serialization used as the short-link cache key (`parsed.toString()`). -/
def urlToString (u : URLm) : String :=
  u.scheme ++ "://" ++ u.hostname ++ u.pathname ++
    (if u.search = "" then "" else "?" ++ u.search)

/-! ## URLSearchParams -/

def splitSegsAux : List Char → List Char → List (List Char)
  | acc, [] => [acc.reverse]
  | acc, '&' :: rest => acc.reverse :: splitSegsAux [] rest
  | acc, c :: rest => splitSegsAux (c :: acc) rest

/-- `application/x-www-form-urlencoded` decoding: `+` to space, then
lenient percent decoding. -/
def formDecode (cs : List Char) : List Char :=
  percentDecodeLenient (cs.map (fun c => if c = '+' then ' ' else c))

/-- One `name=value` segment, decoded. -/
def parseParamSeg (seg : List Char) : String × String :=
  (String.mk (formDecode (seg.takeWhile (fun c => c ≠ '='))),
   String.mk (formDecode ((seg.dropWhile (fun c => c ≠ '=')).drop 1)))

def paramList (search : String) : List (String × String) :=
  ((splitSegsAux [] search.data).filter (fun seg => seg ≠ [])).map parseParamSeg

/-- `url.searchParams.get(key)`: first matching pair's value. -/
def searchParamsGet (search key : String) : Option String :=
  ((paramList search).find? (fun p => p.1 = key)).map Prod.snd

/-! ## extractCoordinatesFromGoogleMapsUrl (types.ts 59-103) -/

/-- Query parameters scanned for a literal pair (types.ts 80). -/
def coordParamsToCheck : List String :=
  ["q", "query", "ll", "sll", "destination", "origin", "daddr", "saddr"]

/-- The `for (const key of paramsToCheck)` loop: skip falsy values, return
the first value that parses as a pair. -/
def firstParamPair (search : String) : List String → Option Coordinates
  | [] => none
  | k :: ks =>
    match searchParamsGet search k with
    | some v =>
      if v = "" then firstParamPair search ks
      else
        match parseLatLngPair v with
        | some c => some c
        | none => firstParamPair search ks
    | none => firstParamPair search ks

/-- Source `extractCoordinatesFromGoogleMapsUrl`: `@` pattern, then
`!3d/!4d` pattern, then (for URL inputs) query parameters, then the
percent-decoded path; a decode failure aborts with `null`. -/
def extractCoordinatesFromGoogleMapsUrl (input : String) : Option Coordinates :=
  let trimmed := jsTrim input
  let viaAt :=
    match scanAt trimmed.data with
    | some caps => toCoordinates (String.mk caps.1) (String.mk caps.2)
    | none => none
  match viaAt with
  | some c => some c
  | none =>
    let viaEmbed :=
      match scanEmbed trimmed.data with
      | some caps => toCoordinates (String.mk caps.1) (String.mk caps.2)
      | none => none
    match viaEmbed with
    | some c => some c
    | none =>
      match parseURL trimmed with
      | none => none
      | some url =>
        match firstParamPair url.search coordParamsToCheck with
        | some c => some c
        | none =>
          match decodeURIComponentM url.pathname with
          | none => none
          | some dp => parseLatLngPair dp

/-! ## extractGeocodeCandidates (types.ts 105-188) -/

/-- Case-insensitive `^loc:` marker strip (`replace(/^loc:/i, "")`). -/
def stripLocMarker (cs : List Char) : List Char :=
  match cs with
  | a :: b :: c :: ':' :: rest =>
    if Char.toLower a = 'l' && Char.toLower b = 'o' && Char.toLower c = 'c'
    then rest else cs
  | _ => cs

/-- Collapse runs of characters selected by `p` to a single `repl`. -/
def collapseRunsAux (p : Char → Bool) (repl : Char) : Bool → List Char → List Char
  | _, [] => []
  | inRun, c :: rest =>
    if p c then
      if inRun then collapseRunsAux p repl true rest
      else repl :: collapseRunsAux p repl true rest
    else c :: collapseRunsAux p repl false rest

/-- Source `cleanCandidate`: strip `loc:`, `+` to space, collapse
whitespace, trim. -/
def cleanCandidate (value : String) : String :=
  String.mk (jsTrimList (collapseRunsAux isSpaceC ' ' false
    ((stripLocMarker value.data).map (fun c => if c = '+' then ' ' else c))))

/-- Drop a case-insensitive tag if the input begins with it. -/
def dropLowerTag : List Char → List Char → Option (List Char)
  | [], cs => some cs
  | t :: ts, c :: cs => if Char.toLower c = t then dropLowerTag ts cs else none
  | _ :: _, [] => none

/-- Leftmost match of `/tag([^/]+)/i` style scans (`/place/`, `/search/`):
find the tag case-insensitively, capture the following nonempty run of
non-`'/'` characters; on an empty capture the engine keeps scanning. -/
def scanTagCapture (tag : List Char) : List Char → Option (List Char)
  | [] => none
  | c :: rest =>
    match dropLowerTag tag (c :: rest) with
    | some aft =>
      let cap := aft.takeWhile (fun x => x ≠ '/')
      if cap = [] then scanTagCapture tag rest else some cap
    | none => scanTagCapture tag rest

/-- JS `.` line terminators (the ASCII ones). -/
def isLineTerm (c : Char) : Bool := c = '\n' || c = '\r'

/-- `replace(/\/@.*/, "")`: remove from the first `"/@"` up to — but not
including — the next line terminator (`.` does not match one) or the end
of the string; the rest of the string is kept. -/
def stripAtSuffix : List Char → List Char
  | [] => []
  | '/' :: '@' :: rest => rest.dropWhile (fun c => ¬ isLineTerm c)
  | c :: rest => c :: stripAtSuffix rest

/-- Query parameters used as search candidates (types.ts 141). -/
def geocodeParamsToCheck : List String :=
  ["q", "query", "destination", "origin", "daddr", "saddr"]

/-- The truthy query-parameter values, in key order. -/
def paramCandidates (search : String) : List String :=
  geocodeParamsToCheck.filterMap (fun k =>
    match searchParamsGet search k with
    | some v => if v = "" then none else some v
    | none => none)

/-- The `pathText` computation (types.ts 161-165). -/
def pathTextOf (decodedPath : String) : String :=
  String.mk (jsTrimList (collapseRunsAux isSpaceC ' ' false
    (collapseRunsAux (fun c => c = '/' || c = '_' || c = '-') ' ' false
      (stripAtSuffix decodedPath.data))))

/-- Raw candidate list for a URL input, in source push order. -/
def rawCandidatesOf (trimmed : String) (url : URLm) : List String :=
  let decodedPath := safeDecode url.pathname
  let placeOpt :=
    match scanTagCapture "/place/".data decodedPath.data with
    | some cap => [String.mk cap]
    | none => []
  let searchOpt :=
    match scanTagCapture "/search/".data decodedPath.data with
    | some cap => [String.mk cap]
    | none => []
  let pathText := pathTextOf decodedPath
  let pathOpt := if pathText ≠ "" && pathText ≠ "/" then [pathText] else []
  paramCandidates url.search ++ placeOpt ++ searchOpt ++ pathOpt ++ [trimmed]

/-- The dedup-and-filter loop over raw candidates (types.ts 173-187): each
candidate is cleaned, dropped if empty or itself a lat/lng pair, and added
to the `Set` (insertion order, first occurrence wins). -/
def candidateFold (unique : List String) : List String → List String
  | [] => unique
  | c :: rest =>
    let cleaned := cleanCandidate c
    if cleaned = "" then candidateFold unique rest
    else if (parseLatLngPair cleaned).isSome then candidateFold unique rest
    else if cleaned ∈ unique then candidateFold unique rest
    else candidateFold (unique ++ [cleaned]) rest

/-- Source `extractGeocodeCandidates`. -/
def extractGeocodeCandidates (input : String) : List String :=
  let trimmed := jsTrim input
  if trimmed = "" then []
  else
    match parseURL trimmed with
    | none => [trimmed]
    | some url => candidateFold [] (rawCandidatesOf trimmed url)

/-! ## TTLCache (src/lib/cache.ts)

The backing `Map<string, CacheEntry<T>>` is modelled as an association
list whose operations mirror `Map.get` / `Map.set` / `Map.delete`; keys
are unique by construction. `Date.now()` is the explicit `now`. -/

structure CEntry (T : Type) where
  value : T
  expiresAt : Nat
  deriving DecidableEq, Repr

abbrev Store (T : Type) := List (String × CEntry T)

def storeLookup {T : Type} : Store T → String → Option (CEntry T)
  | [], _ => none
  | (k, e) :: rest, key => if k = key then some e else storeLookup rest key

/-- `Map.delete`: remove the entry for the key. -/
def storeErase {T : Type} : Store T → String → Store T
  | [], _ => []
  | (k, e) :: rest, key => if k = key then rest else (k, e) :: storeErase rest key

/-- `Map.set`: overwrite in place, else append. -/
def storeSet {T : Type} : Store T → String → CEntry T → Store T
  | [], key, e => [(key, e)]
  | (k, e0) :: rest, key, e =>
    if k = key then (key, e) :: rest else (k, e0) :: storeSet rest key e

/-- `TTLCache.get` returns the value (if present and unexpired) and the
store after the lazy-expiry deletion. -/
def cacheGet {T : Type} (now : Nat) (store : Store T) (key : String) :
    Option T × Store T :=
  match storeLookup store key with
  | none => (none, store)
  | some e =>
    if e.expiresAt < now then (none, storeErase store key)
    else (some e.value, store)

/-- `TTLCache.set`: `expiresAt = Date.now() + (ttlMs ?? defaultTtlMs)`. -/
def cacheSet {T : Type} (now defaultTtlMs : Nat) (store : Store T)
    (key : String) (value : T) (ttlMs : Option Nat) : Store T :=
  storeSet store key ⟨value, now + ttlMs.getD defaultTtlMs⟩

/-- Pure observation of the cache: the value a `get` at time `now` would
yield, without the lazy-expiry side effect. -/
def viewAt {T : Type} (now : Nat) (store : Store T) (key : String) : Option T :=
  match storeLookup store key with
  | none => none
  | some e => if e.expiresAt < now then none else some e.value

def storeKeys {T : Type} (store : Store T) : List String := store.map Prod.fst

/-! ## Fixed-window rate limiter (src/lib/rate-limit.ts) -/

structure RateLimitBucket where
  count : Nat
  resetAt : Nat
  deriving DecidableEq, Repr

/-- Source `checkRateLimit` for a fixed key: the bucket state for that key
is the `Option RateLimitBucket`, and the call returns (allowed, bucket
after the call). -/
def checkRateLimit (maxRequests windowMs now : Nat) :
    Option RateLimitBucket → Bool × RateLimitBucket
  | none => (true, ⟨1, now + windowMs⟩)
  | some current =>
    if current.resetAt < now then (true, ⟨1, now + windowMs⟩)
    else if maxRequests ≤ current.count then (false, current)
    else (true, ⟨current.count + 1, current.resetAt⟩)

/-- A sequence of calls for the same key, each at its own `Date.now()`. -/
def rlRun (maxRequests windowMs : Nat) :
    Option RateLimitBucket → List Nat → Option RateLimitBucket
  | s, [] => s
  | s, now :: rest =>
    rlRun maxRequests windowMs (some (checkRateLimit maxRequests windowMs now s).2) rest

/-! ## Provider payload models (src/lib/google-maps.ts) -/

/-- A JSON field value as the typeof checks observe it: a number, some
other value, `null`, or absent (`undefined`, covering every broken `?.`
chain). -/
inductive JVal where
  | num (x : ℚ)
  | str (s : String)
  | jnull
  | missing
  deriving DecidableEq, Repr

/-- The `??` operator on optional-chain results. -/
def jvalCoalesce (a b : JVal) : JVal :=
  match a with
  | JVal.jnull => b
  | JVal.missing => b
  | v => v

structure GeoLocation where
  lat : JVal
  lng : JVal
  deriving DecidableEq, Repr

structure GeoGeometry where
  location : Option GeoLocation
  deriving DecidableEq, Repr

structure GeoResult where
  geometry : Option GeoGeometry
  deriving DecidableEq, Repr

structure GeocodeResponse where
  status : String
  error_message : Option String
  results : List GeoResult
  deriving DecidableEq, Repr

structure DMElement where
  status : Option String
  distanceValue : JVal
  durationValue : JVal
  trafficValue : JVal
  deriving DecidableEq, Repr

structure DMRow where
  elements : List DMElement
  deriving DecidableEq, Repr

structure DistanceMatrixResponse where
  status : String
  error_message : Option String
  rows : List DMRow
  deriving DecidableEq, Repr

inductive TravelMode where
  | driving
  | walking
  | transit
  deriving DecidableEq, Repr

def TravelMode.toKey : TravelMode → String
  | TravelMode.driving => "driving"
  | TravelMode.walking => "walking"
  | TravelMode.transit => "transit"

/-- The outward effect oracle: the configured API key, the redirect-following
GET used by the short-link expander (`none` = network error or timeout; the
value is `response.url`), and the two provider JSON fetches (`Except.error`
= thrown transport or HTTP failure of `fetchJson`, `Except.ok` = the parsed
payload). -/
structure ProviderEnv where
  apiKey : Option String
  fetchUrl : String → Option String
  geocode : String → Except String GeocodeResponse
  distance : Coordinates → Coordinates → TravelMode → Except String DistanceMatrixResponse

/-- JS `a || b` for an optional string field. -/
def jsOr (a : Option String) (b : String) : String :=
  match a with
  | some s => if s = "" then b else s
  | none => b

/-- Cache TTL constants (google-maps.ts 6-8). -/
def geocodeTtl : Nat := 24 * 60 * 60 * 1000
def distanceTtl : Nat := 60 * 1000
def shortUrlTtl : Nat := 24 * 60 * 60 * 1000

def SHORT_MAPS_HOSTS : List String := ["maps.app.goo.gl", "goo.gl", "g.co"]

def listStartsWith : List Char → List Char → Bool
  | _, [] => true
  | [], _ :: _ => false
  | c :: cs, d :: ds => c = d && listStartsWith cs ds

def listContains (needle : List Char) : List Char → Bool
  | [] => listStartsWith [] needle
  | c :: t => listStartsWith (c :: t) needle || listContains needle t

/-- JS `String.prototype.includes`. -/
def strIncludes (s sub : String) : Bool := listContains sub.data s.data

/-- Source `shouldExpandShortMapsUrl` (google-maps.ts 55-67). -/
def shouldExpandShortMapsUrl (url : URLm) : Bool :=
  let host := jsToLower url.hostname
  if ¬ (host ∈ SHORT_MAPS_HOSTS) then false
  else if host = "maps.app.goo.gl" then true
  else
    let path := jsToLower url.pathname
    strIncludes path "/maps" || listStartsWith path.data "/kgs".data

/-- The fetch-and-cache tail of `maybeExpandShortMapsUrl`
(`response.url || trimmed`, cached under the normalized URL; any fetch
failure silently falls back to the trimmed input). -/
def expandFetch (env : ProviderEnv) (now : Nat) (sc : Store String)
    (trimmed cacheKey : String) : String × Store String × Nat :=
  match env.fetchUrl cacheKey with
  | some respUrl =>
    let finalUrl := if respUrl = "" then trimmed else respUrl
    (finalUrl, cacheSet now shortUrlTtl sc cacheKey finalUrl none, 1)
  | none => (trimmed, sc, 1)

/-- Source `maybeExpandShortMapsUrl` (google-maps.ts 69-103): returns the
expanded string, the short-link cache after the call, and the number of
outbound GETs. -/
def maybeExpandShortMapsUrl (env : ProviderEnv) (now : Nat)
    (sc : Store String) (input : String) : String × Store String × Nat :=
  let trimmed := jsTrim input
  match normalizeUrl trimmed with
  | none => (trimmed, sc, 0)
  | some parsed =>
    if ¬ shouldExpandShortMapsUrl parsed then (trimmed, sc, 0)
    else
      let cacheKey := urlToString parsed
      let got := cacheGet now sc cacheKey
      match got.1 with
      | some cached =>
        if cached ≠ "" then (cached, got.2, 0)
        else expandFetch env now got.2 trimmed cacheKey
      | none => expandFetch env now got.2 trimmed cacheKey

/-- The `payload.results?.[0]?.geometry?.location` access plus the typeof
checks (google-maps.ts 150-155): the coordinates of a well-formed first
result. -/
def extractLocation (payload : GeocodeResponse) : Option Coordinates :=
  match payload.results.head? with
  | none => none
  | some r =>
    match r.geometry with
    | none => none
    | some g =>
      match g.location with
      | none => none
      | some loc =>
        match loc.lat, loc.lng with
        | JVal.num la, JVal.num ln => some ⟨la, ln⟩
        | _, _ => none

/-- Source `geocodeCandidate` (google-maps.ts 128-158): returns the
outcome (`Except.error` = thrown), the geocode cache after the call, and
the number of provider calls made (0 or 1). -/
def geocodeCandidate (env : ProviderEnv) (now : Nat) (gc : Store Coordinates)
    (candidate : String) : Except String (Option Coordinates) × Store Coordinates × Nat :=
  let cacheKey := jsToLower candidate
  let got := cacheGet now gc cacheKey
  match got.1 with
  | some cached => (Except.ok (some cached), got.2, 0)
  | none =>
    match env.apiKey with
    | none => (Except.error "GOOGLE_MAPS_API_KEY is not configured.", got.2, 0)
    | some _ =>
      match env.geocode candidate with
      | Except.error e => (Except.error e, got.2, 1)
      | Except.ok payload =>
        if payload.status = "ZERO_RESULTS" then (Except.ok none, got.2, 1)
        else if payload.status ≠ "OK" then
          (Except.error (jsOr payload.error_message
            ("Geocoding failed with status " ++ payload.status ++ ".")), got.2, 1)
        else
          match extractLocation payload with
          | none => (Except.ok none, got.2, 1)
          | some coords =>
            (Except.ok (some coords),
             cacheSet now geocodeTtl got.2 cacheKey coords none, 1)

/-- The geocoding fallback loop of `resolveCoordinatesFromInput`
(google-maps.ts 179-184): try candidates in order, skipping "no result"
outcomes, propagating a thrown failure, returning the first success. -/
def geocodeLoop (env : ProviderEnv) (now : Nat) :
    Store Coordinates → List String →
    Except String (Option Coordinates) × Store Coordinates × Nat
  | gc, [] => (Except.ok none, gc, 0)
  | gc, c :: rest =>
    match geocodeCandidate env now gc c with
    | (Except.error e, gc1, n) => (Except.error e, gc1, n)
    | (Except.ok (some v), gc1, n) => (Except.ok (some v), gc1, n)
    | (Except.ok none, gc1, n) =>
      let r := geocodeLoop env now gc1 rest
      (r.1, r.2.1, n + r.2.2)

/-- First parse candidate with embedded coordinates (the `for` loop of
google-maps.ts 165-170). -/
def firstExtract : List String → Option Coordinates
  | [] => none
  | c :: rest =>
    match extractCoordinatesFromGoogleMapsUrl c with
    | some parsed => some parsed
    | none => firstExtract rest

/-- `Set.add` with JS insertion-order semantics. -/
def addUnique (seen : List String) (x : String) : List String :=
  if x ∈ seen then seen else seen ++ [x]

/-- The geocode-candidate union across parse candidates (google-maps.ts
172-177), in first-seen order. -/
def unionCandidates (parseCandidates : List String) : List String :=
  parseCandidates.foldl (fun acc src => (extractGeocodeCandidates src).foldl addUnique acc) []

structure ResolveOutcome where
  result : Except String (Option Coordinates)
  geoCache : Store Coordinates
  shortCache : Store String
  geocodeFetches : Nat

/-- The parse-candidate list (google-maps.ts 164): the expanded URL first
when expansion changed the string, else just the trimmed input. -/
def parseCandidatesOf (trimmed expanded : String) : List String :=
  if expanded = trimmed then [trimmed] else [expanded, trimmed]

/-- Source `resolveCoordinatesFromInput` (google-maps.ts 160-187). -/
def resolveCoordinatesFromInput (env : ProviderEnv) (now : Nat)
    (gc : Store Coordinates) (sc : Store String) (input : String) : ResolveOutcome :=
  let trimmed := jsTrim input
  let ex := maybeExpandShortMapsUrl env now sc trimmed
  let parseCandidates := parseCandidatesOf trimmed ex.1
  match firstExtract parseCandidates with
  | some parsed => ⟨Except.ok (some parsed), gc, ex.2.1, 0⟩
  | none =>
    let r := geocodeLoop env now gc (unionCandidates parseCandidates)
    ⟨r.1, r.2.1, ex.2.1, r.2.2⟩

/-! ## getDistanceWithTraffic (google-maps.ts 189-240) -/

/-- `toFixed(fracDigits)` for a nonnegative rational: nearest multiple of
`10 ^ -fracDigits`, ties away from zero. -/
def ratToFixedNN (fracDigits : Nat) (x : ℚ) : String :=
  let scaled : Int := ⌊x * (10 : ℚ) ^ fracDigits + 1 / 2⌋
  let n := scaled.toNat
  natToStr (n / 10 ^ fracDigits) ++ "." ++
    padZeros fracDigits (natToStr (n % 10 ^ fracDigits))

/-- JS `Number.prototype.toFixed`. -/
def ratToFixed (fracDigits : Nat) (x : ℚ) : String :=
  if x < 0 then "-" ++ ratToFixedNN fracDigits (-x) else ratToFixedNN fracDigits x

/-- Source `buildCoordinateKey`: `lat.toFixed(6) ++ "," ++ lng.toFixed(6)`. -/
def buildCoordinateKey (coords : Coordinates) : String :=
  ratToFixed 6 coords.lat ++ "," ++ ratToFixed 6 coords.lng

/-- `Number(x.toFixed(1))`: round to one decimal, ties away from zero. -/
def jsToFixed1 (x : ℚ) : ℚ :=
  if x < 0 then -((⌊(-x) * 10 + 1 / 2⌋ : ℚ) / 10) else (⌊x * 10 + 1 / 2⌋ : ℚ) / 10

structure DistancePoint where
  distance_km : ℚ
  duration_minutes : ℚ
  deriving DecidableEq, Repr

/-- `payload.rows?.[0]?.elements?.[0]`. -/
def dmElement (payload : DistanceMatrixResponse) : Option DMElement :=
  match payload.rows.head? with
  | none => none
  | some r => r.elements.head?

def optStatusText : Option String → String
  | some s => s
  | none => "undefined"

/-- Source `getDistanceWithTraffic`: outcome (`Except.error` = thrown),
distance cache after the call, number of provider calls. -/
def getDistanceWithTraffic (env : ProviderEnv) (now : Nat) (dc : Store DistancePoint)
    (origin destination : Coordinates) (mode : TravelMode) :
    Except String DistancePoint × Store DistancePoint × Nat :=
  let cacheKey := buildCoordinateKey origin ++ "->" ++ buildCoordinateKey destination
    ++ ":" ++ mode.toKey
  let got := cacheGet now dc cacheKey
  match got.1 with
  | some cached => (Except.ok cached, got.2, 0)
  | none =>
    match env.apiKey with
    | none => (Except.error "GOOGLE_MAPS_API_KEY is not configured.", got.2, 0)
    | some _ =>
      match env.distance origin destination mode with
      | Except.error e => (Except.error e, got.2, 1)
      | Except.ok payload =>
        if payload.status ≠ "OK" then
          (Except.error (jsOr payload.error_message
            ("Distance Matrix failed with status " ++ payload.status ++ ".")), got.2, 1)
        else
          match dmElement payload with
          | none => (Except.error "Distance Matrix returned an empty response.", got.2, 1)
          | some el =>
            if el.status ≠ some "OK" then
              (Except.error ("Distance Matrix element failed with status "
                ++ optStatusText el.status ++ "."), got.2, 1)
            else
              match el.distanceValue, jvalCoalesce el.trafficValue el.durationValue with
              | JVal.num distanceMeters, JVal.num durationSeconds =>
                let result : DistancePoint :=
                  ⟨jsToFixed1 (distanceMeters / 1000), jsToFixed1 (durationSeconds / 60)⟩
                (Except.ok result, cacheSet now distanceTtl got.2 cacheKey result none, 1)
              | _, _ =>
                (Except.error "Distance Matrix response is missing distance or duration values.",
                 got.2, 1)

/-! ## Travel matrix row assembly (the POST handler, TravelMap.tsx 117-150) -/

structure LandmarkPt where
  id : String
  name : String
  lat : ℚ
  lng : ℚ
  deriving DecidableEq, Repr

/-- A settled promise, as `Promise.allSettled` delivers it: fulfilled with
a value, or rejected with a cause. -/
inductive Settled (α : Type) where
  | fulfilled (value : α)
  | rejected (reason : String)
  deriving DecidableEq, Repr

/-- Modelled from the spec: `getErrorMessage` lives in `@/lib/errors`,
which is not part of the source tree; per the spec each failed leg
contributes "a human-readable cause", so a rejection cause is rendered as
its own message text. -/
def getErrorMessage (reason : String) : String := reason

structure TravelResult where
  landmark : String
  landmarkId : String
  to_landmark : Option DistancePoint
  to_target : Option DistancePoint
  error : Option String
  deriving DecidableEq, Repr

/-- The per-landmark row assembly of the travel POST handler: the two
settled directed legs (`toLandmarkResult` is target → landmark,
`toTargetResult` is landmark → target) become the row's fields, each
rejection appending its cause; the causes are joined with `" | "`. -/
def buildTravelRow (lm : LandmarkPt)
    (toLandmarkResult toTargetResult : Settled DistancePoint) : TravelResult :=
  let toLandmark :=
    match toLandmarkResult with
    | Settled.fulfilled v => some v
    | Settled.rejected _ => none
  let toTarget :=
    match toTargetResult with
    | Settled.fulfilled v => some v
    | Settled.rejected _ => none
  let errors :=
    (match toLandmarkResult with
     | Settled.fulfilled _ => []
     | Settled.rejected r => ["target -> landmark failed: " ++ getErrorMessage r]) ++
    (match toTargetResult with
     | Settled.fulfilled _ => []
     | Settled.rejected r => ["landmark -> target failed: " ++ getErrorMessage r])
  { landmark := lm.name
    landmarkId := lm.id
    to_landmark := toLandmark
    to_target := toTarget
    error := if errors.length > 0 then some (String.intercalate " | " errors) else none }

/-- The `Promise.all(landmarks.map(...))` fan-out: every landmark yields a
row built from its two settled legs; `legs lm` packages the settled
outcomes of the two `getDistanceWithTraffic` calls for that landmark. -/
def computeMatrix (landmarks : List LandmarkPt)
    (legs : LandmarkPt → Settled DistancePoint × Settled DistancePoint) :
    List TravelResult :=
  landmarks.map (fun lm => buildTravelRow lm (legs lm).1 (legs lm).2)

/-! ## Decimal literals (for the round-trip claim) -/

/-- A latitude or longitude written in plain decimal notation: optional
sign, integer digits, optional fraction digits. -/
structure DecLit where
  neg : Bool
  intDs : List Char
  frac : List Char

def DecLit.WF (d : DecLit) : Prop :=
  d.intDs ≠ [] ∧ (∀ c ∈ d.intDs, isDigitC c = true) ∧ (∀ c ∈ d.frac, isDigitC c = true)

def DecLit.val (d : DecLit) : ℚ := ratOfParts d.neg d.intDs d.frac

def DecLit.render (d : DecLit) : String :=
  String.mk ((if d.neg then ['-'] else []) ++ d.intDs ++
    (if d.frac = [] then [] else '.' :: d.frac))

/-! ## Auxiliary predicates and concrete environments used in proofs -/

/-- The rate-limit state invariant: any stored bucket holds at most
`maxRequests`. -/
def rlStateOK (maxRequests : Nat) : Option RateLimitBucket → Prop
  | none => True
  | some b => b.count ≤ maxRequests

/-- A status-`OK` geocode payload with no results (malformed per §7). -/
def malformedOkPayload : GeocodeResponse := ⟨"OK", none, []⟩

/-- Environment whose geocoder always answers with the malformed payload. -/
def c3Env : ProviderEnv :=
  ⟨some "key", fun _ => none, fun _ => Except.ok malformedOkPayload,
   fun _ _ _ => Except.error "unused"⟩

/-- A well-formed geocode payload resolving to `(1, 2)`. -/
def okPayload : GeocodeResponse :=
  ⟨"OK", none, [⟨some ⟨some ⟨JVal.num 1, JVal.num 2⟩⟩⟩]⟩

/-- Environment distinguishing a zero-results, a hard-error and a
successful candidate. -/
def c6Env : ProviderEnv :=
  ⟨some "key", fun _ => none,
   fun c =>
     if c = "zero" then Except.ok ⟨"ZERO_RESULTS", none, []⟩
     else if c = "bad" then Except.ok ⟨"REQUEST_DENIED", some "denied", []⟩
     else Except.ok okPayload,
   fun _ _ _ => Except.error "unused"⟩

/-- Environment with no reachable provider (every call fails). -/
def c4Env : ProviderEnv :=
  ⟨some "key", fun _ => none, fun _ => Except.error "offline",
   fun _ _ _ => Except.error "offline"⟩

/-- Leg outcomes used in the travel-matrix witness: the landmark with id
`"both"` fails on both legs, every other landmark fails only on the
target → landmark leg. -/
def c7Legs : LandmarkPt → Settled DistancePoint × Settled DistancePoint :=
  fun lm =>
    if lm.id = "both" then (Settled.rejected "x", Settled.rejected "y")
    else (Settled.rejected "boom", Settled.fulfilled ⟨1, 2⟩)

/-! ## Association-list lemmas -/

theorem storeLookup_storeSet {T : Type} (store : Store T) (key k : String) (e : CEntry T) :
    storeLookup (storeSet store key e) k =
      if k = key then some e else storeLookup store k := by
  induction store with
  | nil =>
    by_cases hk : k = key
    · subst hk; simp [storeSet, storeLookup]
    · have hk2 : ¬ key = k := fun hh => hk hh.symm
      simp [storeSet, storeLookup, hk, hk2]
  | cons hd tl ih =>
    obtain ⟨k0, e0⟩ := hd
    by_cases h0 : k0 = key
    · subst h0
      by_cases hk : k0 = k
      · subst hk; simp [storeSet, storeLookup]
      · have hk2 : ¬ k = k0 := fun hh => hk hh.symm
        simp [storeSet, storeLookup, hk, hk2]
    · by_cases hk : k0 = k
      · subst hk
        have h2 : ¬ k0 = key := h0
        simp [storeSet, storeLookup, h2]
      · simp [storeSet, storeLookup, h0, hk, ih]

theorem storeLookup_storeErase_ne {T : Type} (store : Store T) (key k : String)
    (h : k ≠ key) : storeLookup (storeErase store key) k = storeLookup store k := by
  induction store with
  | nil => simp [storeErase, storeLookup]
  | cons hd tl ih =>
    obtain ⟨k0, e0⟩ := hd
    by_cases h0 : k0 = key
    · subst h0
      have h2 : ¬ k0 = k := fun hh => h (hh.symm)
      simp [storeErase, storeLookup, h2]
    · by_cases hk : k0 = k
      · subst hk
        simp [storeErase, storeLookup, h0]
      · simp [storeErase, storeLookup, h0, hk, ih]

theorem storeLookup_eq_none_of_not_mem {T : Type} (store : Store T) (key : String)
    (h : key ∉ storeKeys store) : storeLookup store key = none := by
  induction store with
  | nil => simp [storeLookup]
  | cons hd tl ih =>
    obtain ⟨k0, e0⟩ := hd
    simp only [storeKeys, List.map_cons, List.mem_cons] at h
    push_neg at h
    have h1 : ¬ k0 = key := fun hh => h.1 hh.symm
    simp only [storeLookup, if_neg h1]
    exact ih (by simpa [storeKeys] using h.2)

theorem storeLookup_storeErase_self {T : Type} (store : Store T) (key : String)
    (hnd : (storeKeys store).Nodup) :
    storeLookup (storeErase store key) key = none := by
  induction store with
  | nil => simp [storeErase, storeLookup]
  | cons hd tl ih =>
    obtain ⟨k0, e0⟩ := hd
    simp only [storeKeys, List.map_cons, List.nodup_cons] at hnd
    by_cases h0 : k0 = key
    · subst h0
      simp only [storeErase, if_pos rfl]
      exact storeLookup_eq_none_of_not_mem tl k0 (by simpa [storeKeys] using hnd.1)
    · simp only [storeErase, if_neg h0, storeLookup, if_neg h0]
      exact ih hnd.2

/-- The lazy-expiry deletion inside `get` changes no observable value. -/
theorem viewAt_cacheGet_snd {T : Type} (now : Nat) (store : Store T) (key : String)
    (hnd : (storeKeys store).Nodup) :
    ∀ k, viewAt now (cacheGet now store key).2 k = viewAt now store k := by
  intro k
  cases hl : storeLookup store key with
  | none => simp only [cacheGet, hl]
  | some e =>
    by_cases hexp : e.expiresAt < now
    · simp only [cacheGet, hl, if_pos hexp]
      by_cases hk : k = key
      · subst hk
        simp only [viewAt, storeLookup_storeErase_self store k hnd, hl, if_pos hexp]
      · simp only [viewAt, storeLookup_storeErase_ne store key k hk]
    · simp only [cacheGet, hl, if_neg hexp]

/-- The lazy-expiry deletion inside `get` writes no entry. -/
theorem storeLookup_cacheGet_snd {T : Type} (now : Nat) (store : Store T) (key : String)
    (hnd : (storeKeys store).Nodup) :
    ∀ k e, storeLookup (cacheGet now store key).2 k = some e →
      storeLookup store k = some e := by
  intro k e h
  cases hl : storeLookup store key with
  | none => simpa only [cacheGet, hl] using h
  | some e0 =>
    by_cases hexp : e0.expiresAt < now
    · simp only [cacheGet, hl, if_pos hexp] at h
      by_cases hk : k = key
      · subst hk
        rw [storeLookup_storeErase_self store k hnd] at h
        exact absurd h (by simp)
      · rw [storeLookup_storeErase_ne store key k hk] at h; exact h
    · simpa only [cacheGet, hl, if_neg hexp] using h

/-! ## C10 -/

/-- C10: an input that is empty or whitespace-only (its trim is empty)
yields the empty candidate sequence, not a singleton holding the empty
string. -/
theorem C10_empty_input (input : String) (h : jsTrim input = "") :
    extractGeocodeCandidates input = [] := by
  simp [extractGeocodeCandidates, h]

theorem C10_witness :
    jsTrim "  " = "" ∧ extractGeocodeCandidates "  " = [] :=
  ⟨by decide, C10_empty_input "  " (by decide)⟩

/-! ## C5 -/

/-- C5: TTLCache semantics — `set` stores `expiresAt` as `now` plus the
override (else the default TTL), overwriting any existing entry and
leaving other keys alone; `get` returns absent for an absent key, the
stored value without state change (no TTL refresh) when `now ≤ expiresAt`,
deletes the entry and returns absent when `now > expiresAt`, and never
returns a stale entry. -/
theorem C5_ttlcache {T : Type} (now defaultTtlMs : Nat) (store : Store T)
    (key : String) (v : T) (ttlMs : Option Nat) :
    (∀ k, storeLookup (cacheSet now defaultTtlMs store key v ttlMs) k =
        if k = key then some ⟨v, now + ttlMs.getD defaultTtlMs⟩
        else storeLookup store k) ∧
    (storeLookup store key = none → cacheGet now store key = (none, store)) ∧
    (∀ e, storeLookup store key = some e → now ≤ e.expiresAt →
        cacheGet now store key = (some e.value, store)) ∧
    (∀ e, storeLookup store key = some e → e.expiresAt < now →
        cacheGet now store key = (none, storeErase store key)) ∧
    (∀ w, (cacheGet now store key).1 = some w →
        ∃ e, storeLookup store key = some e ∧ e.value = w ∧ now ≤ e.expiresAt) := by
  refine ⟨fun k => ?_, fun h => ?_, fun e he hle => ?_, fun e he hlt => ?_, fun w hw => ?_⟩
  · exact storeLookup_storeSet store key k _
  · simp [cacheGet, h]
  · simp [cacheGet, he, Nat.not_lt.mpr hle]
  · simp [cacheGet, he, hlt]
  · cases hl : storeLookup store key with
    | none => simp [cacheGet, hl] at hw
    | some e =>
      by_cases hexp : e.expiresAt < now
      · simp [cacheGet, hl, hexp] at hw
      · simp only [cacheGet, hl, if_neg hexp] at hw
        exact ⟨e, rfl, (Option.some.inj hw).symm ▸ rfl, Nat.not_lt.mp hexp⟩

theorem C5_witness :
    storeLookup (cacheSet 100 50 ([] : Store Nat) "a" 7 none) "a" = some ⟨7, 150⟩ ∧
    cacheGet 120 (cacheSet 100 50 ([] : Store Nat) "a" 7 none) "a" =
      (some 7, cacheSet 100 50 ([] : Store Nat) "a" 7 none) ∧
    cacheGet 200 (cacheSet 100 50 ([] : Store Nat) "a" 7 none) "a" =
      (none, storeErase (cacheSet 100 50 ([] : Store Nat) "a" 7 none) "a") := by
  refine ⟨?_, ?_, ?_⟩
  · have h := (C5_ttlcache 100 50 ([] : Store Nat) "a" 7 none).1 "a"
    simpa using h
  · exact (C5_ttlcache 120 50 (cacheSet 100 50 ([] : Store Nat) "a" 7 none) "a" 7 none).2.2.1
      ⟨7, 150⟩ (by decide) (by decide)
  · exact (C5_ttlcache 200 50 (cacheSet 100 50 ([] : Store Nat) "a" 7 none) "a" 7 none).2.2.2.1
      ⟨7, 150⟩ (by decide) (by decide)

/-! ## C2 -/

/-- C2 counterexample: with `maxRequests = 0` the very first call returns
`true` (no denial was ever reported) yet stores a bucket whose count `1`
exceeds `maxRequests`. -/
theorem C2_counterexample :
    (checkRateLimit 0 1000 0 none).1 = true ∧
    0 < (checkRateLimit 0 1000 0 none).2.count := by
  decide

theorem rlStep_preserves (maxRequests windowMs : Nat) (h : 1 ≤ maxRequests)
    (now : Nat) (s : Option RateLimitBucket) (hs : rlStateOK maxRequests s) :
    ((checkRateLimit maxRequests windowMs now s).2).count ≤ maxRequests := by
  cases s with
  | none => simpa [checkRateLimit] using h
  | some b =>
    by_cases h1 : b.resetAt < now
    · simpa [checkRateLimit, h1] using h
    · by_cases h2 : maxRequests ≤ b.count
      · simpa [checkRateLimit, h1, h2] using hs
      · simp only [checkRateLimit, if_neg h1, if_neg h2]
        omega

/-- C2 (amended): for `maxRequests ≥ 1`, a single call from a compliant
state keeps the stored count at most `maxRequests`, and along any sequence
of calls for a fixed key starting from no bucket the stored count never
exceeds `maxRequests` — so the count never exceeds the limit at all,
denials aside.  (With `maxRequests = 0` the first call of a window returns
`true` and stores count 1, as the counterexample shows.) -/
theorem C2_rate_limit_invariant (maxRequests windowMs : Nat) (h : 1 ≤ maxRequests) :
    (∀ now s, rlStateOK maxRequests s →
      ((checkRateLimit maxRequests windowMs now s).2).count ≤ maxRequests) ∧
    (∀ nows b, rlRun maxRequests windowMs none nows = some b →
      b.count ≤ maxRequests) := by
  constructor
  · exact fun now s hs => rlStep_preserves maxRequests windowMs h now s hs
  · have main : ∀ nows s, rlStateOK maxRequests s →
        rlStateOK maxRequests (rlRun maxRequests windowMs s nows) := by
      intro nows
      induction nows with
      | nil => intro s hs; exact hs
      | cons now rest ih =>
        intro s hs
        exact ih _ (rlStep_preserves maxRequests windowMs h now s hs)
    intro nows b hb
    have := main nows none trivial
    rw [hb] at this
    exact this

theorem C2_witness :
    ((checkRateLimit 3 1000 5 (some ⟨2, 1000⟩)).2).count ≤ 3 ∧
    ∀ b, rlRun 3 1000 none [0, 1, 2, 3, 4] = some b → b.count ≤ 3 := by
  refine ⟨?_, ?_⟩
  · exact (C2_rate_limit_invariant 3 1000 (by decide)).1 5 (some ⟨2, 1000⟩)
      (by show (2 : Nat) ≤ 3; decide)
  · exact fun b hb => (C2_rate_limit_invariant 3 1000 (by decide)).2 [0, 1, 2, 3, 4] b hb

/-! ## C7 -/

/-- C7: the two directed legs are evaluated independently.  A landmark
whose target → landmark call fails while landmark → target succeeds yields
a row with `to_target` populated, `to_landmark` absent, and the error
message naming the target → landmark direction; when both legs fail the
two causes are joined by `" | "`; and per-leg failures never suppress
other landmarks' rows — the matrix has exactly one row per landmark, each
row independent of the rest. -/
theorem C7_matrix_rows
    (legs : LandmarkPt → Settled DistancePoint × Settled DistancePoint)
    (lm lm2 : LandmarkPt) (dp : DistancePoint) (m m1 m2 : String)
    (h1 : legs lm = (Settled.rejected m, Settled.fulfilled dp))
    (h2 : legs lm2 = (Settled.rejected m1, Settled.rejected m2)) :
    (∀ lms, (computeMatrix lms legs).length = lms.length) ∧
    (∀ lms, computeMatrix (lm :: lms) legs =
      ⟨lm.name, lm.id, none, some dp,
        some ("target -> landmark failed: " ++ m)⟩ :: computeMatrix lms legs) ∧
    (computeMatrix [lm2] legs =
      [⟨lm2.name, lm2.id, none, none,
        some ("target -> landmark failed: " ++ m1 ++ " | " ++
          ("landmark -> target failed: " ++ m2))⟩]) := by
  refine ⟨fun lms => ?_, fun lms => ?_, ?_⟩
  · simp [computeMatrix]
  · simp only [computeMatrix, List.map_cons, buildTravelRow, h1, getErrorMessage]
    rfl
  · simp only [computeMatrix, List.map_cons, List.map_nil, buildTravelRow, h2,
      getErrorMessage]
    rfl

theorem C7_witness :
    (computeMatrix [⟨"a", "A", 0, 0⟩, ⟨"both", "B", 0, 0⟩] c7Legs).length = 2 ∧
    computeMatrix [⟨"a", "A", 0, 0⟩] c7Legs =
      [⟨"A", "a", none, some ⟨1, 2⟩, some ("target -> landmark failed: " ++ "boom")⟩] ∧
    computeMatrix [⟨"both", "B", 0, 0⟩] c7Legs =
      [⟨"B", "both", none, none,
        some ("target -> landmark failed: " ++ "x" ++ " | " ++
          ("landmark -> target failed: " ++ "y"))⟩] := by
  have h := C7_matrix_rows c7Legs ⟨"a", "A", 0, 0⟩ ⟨"both", "B", 0, 0⟩ ⟨1, 2⟩
    "boom" "x" "y" (by decide) (by decide)
  exact ⟨h.1 _, by rw [h.2.1 []]; rfl, h.2.2⟩

/-! ## C3 -/

/-- C3 counterexample: the provider answers `geocodeCandidate` with status
`OK` and a malformed payload (no results); the source returns a "no
result" (`Except.ok none`, so resolution continues to the next candidate)
instead of the propagating failure the claim asserts. -/
theorem C3_counterexample :
    (geocodeCandidate c3Env 0 [] "somewhere").1 = Except.ok none := rfl

/-- C3 (amended): a malformed or incomplete payload carrying status `OK`
(results missing or empty, or lat/lng absent or not numeric) is treated by
`geocodeCandidate` as a "no result": it returns absent and the resolver
silently continues to the next candidate.  A propagating failure with a
descriptive message is raised only for a status other than `OK` and
`ZERO_RESULTS` (or a transport error). -/
theorem C3_malformed_is_no_result (env : ProviderEnv) (now : Nat)
    (gc : Store Coordinates) (candidate : String) (payload : GeocodeResponse)
    (hmiss : (cacheGet now gc (jsToLower candidate)).1 = none)
    (hkey : env.apiKey.isSome = true)
    (hresp : env.geocode candidate = Except.ok payload)
    (hok : payload.status = "OK")
    (hmal : extractLocation payload = none) :
    (geocodeCandidate env now gc candidate).1 = Except.ok none := by
  obtain ⟨k, hk⟩ := Option.isSome_iff_exists.mp hkey
  simp [geocodeCandidate, hmiss, hk, hresp, hok, hmal]

theorem C3_witness :
    (geocodeCandidate c3Env 0 [] "elsewhere").1 = Except.ok none :=
  C3_malformed_is_no_result c3Env 0 [] "elsewhere" malformedOkPayload
    (by decide) (by decide) rfl rfl rfl

/-! ## C9 -/

/-- Every branch of `geocodeCandidate` either leaves the cache exactly as
`get` left it or ends in a successful resolution. -/
theorem geocodeCandidate_cache_cases (env : ProviderEnv) (now : Nat)
    (gc : Store Coordinates) (candidate : String) :
    (geocodeCandidate env now gc candidate).2.1 =
      (cacheGet now gc (jsToLower candidate)).2 ∨
    ∃ v, (geocodeCandidate env now gc candidate).1 = Except.ok (some v) := by
  rcases hgot : cacheGet now gc (jsToLower candidate) with ⟨hit, gc1⟩
  simp only [geocodeCandidate, hgot]
  cases hit with
  | some cached => exact Or.inr ⟨cached, rfl⟩
  | none =>
    cases env.apiKey with
    | none => exact Or.inl rfl
    | some k =>
      cases env.geocode candidate with
      | error e => exact Or.inl rfl
      | ok payload =>
        by_cases hz : payload.status = "ZERO_RESULTS"
        · simp only [if_pos hz]; exact Or.inl trivial
        · simp only [if_neg hz]
          by_cases hok : payload.status ≠ "OK"
          · simp only [if_pos hok]; exact Or.inl trivial
          · simp only [if_neg hok]
            cases hloc : extractLocation payload with
            | none => exact Or.inl rfl
            | some coords => exact Or.inr ⟨coords, rfl⟩

/-- Every branch of `getDistanceWithTraffic` either leaves the cache
exactly as `get` left it or ends in a successful result. -/
theorem getDistance_cache_cases (env : ProviderEnv) (now : Nat)
    (dc : Store DistancePoint) (origin destination : Coordinates) (mode : TravelMode) :
    (getDistanceWithTraffic env now dc origin destination mode).2.1 =
      (cacheGet now dc (buildCoordinateKey origin ++ "->" ++
        buildCoordinateKey destination ++ ":" ++ mode.toKey)).2 ∨
    ∃ dp, (getDistanceWithTraffic env now dc origin destination mode).1 =
      Except.ok dp := by
  rcases hgot : cacheGet now dc (buildCoordinateKey origin ++ "->" ++
      buildCoordinateKey destination ++ ":" ++ mode.toKey) with ⟨hit, dc1⟩
  simp only [getDistanceWithTraffic, hgot]
  cases hit with
  | some cached => exact Or.inr ⟨cached, rfl⟩
  | none =>
    cases env.apiKey with
    | none => exact Or.inl rfl
    | some k =>
      cases env.distance origin destination mode with
      | error e => exact Or.inl rfl
      | ok payload =>
        by_cases hbad : payload.status ≠ "OK"
        · simp only [if_pos hbad]; exact Or.inl trivial
        · simp only [if_neg hbad]
          cases hel : dmElement payload with
          | none => exact Or.inl rfl
          | some el =>
            by_cases hes : el.status ≠ some "OK"
            · simp only [if_pos hes]; exact Or.inl trivial
            · simp only [if_neg hes]
              cases hdm : el.distanceValue with
              | num distanceMeters =>
                cases hds : jvalCoalesce el.trafficValue el.durationValue with
                | num durationSeconds => exact Or.inr ⟨_, rfl⟩
                | str s => exact Or.inl rfl
                | jnull => exact Or.inl rfl
                | missing => exact Or.inl rfl
              | str s => exact Or.inl rfl
              | jnull => exact Or.inl rfl
              | missing => exact Or.inl rfl

/-- C9: error atomicity of the cached provider wrappers.  Whenever
`geocodeCandidate` ends in anything but a successful resolution (thrown
failure or "no result"), and whenever `getDistanceWithTraffic` ends in a
thrown failure, the corresponding cache is observably unchanged and gains
no entry: failures are never cached, so a later identical call re-contacts
the provider. -/
theorem C9_no_failure_caching :
    (∀ (env : ProviderEnv) (now : Nat) (gc : Store Coordinates) (candidate : String),
      (storeKeys gc).Nodup →
      (∀ v, (geocodeCandidate env now gc candidate).1 ≠ Except.ok (some v)) →
      (∀ k, viewAt now (geocodeCandidate env now gc candidate).2.1 k = viewAt now gc k) ∧
      (∀ k e, storeLookup (geocodeCandidate env now gc candidate).2.1 k = some e →
        storeLookup gc k = some e)) ∧
    (∀ (env : ProviderEnv) (now : Nat) (dc : Store DistancePoint)
      (origin destination : Coordinates) (mode : TravelMode),
      (storeKeys dc).Nodup →
      (∀ dp, (getDistanceWithTraffic env now dc origin destination mode).1 ≠
        Except.ok dp) →
      (∀ k, viewAt now (getDistanceWithTraffic env now dc origin destination mode).2.1 k =
        viewAt now dc k) ∧
      (∀ k e, storeLookup
          (getDistanceWithTraffic env now dc origin destination mode).2.1 k = some e →
        storeLookup dc k = some e)) := by
  constructor
  · intro env now gc candidate hnd hfail
    rcases geocodeCandidate_cache_cases env now gc candidate with h | ⟨v, hv⟩
    · rw [h]
      exact ⟨viewAt_cacheGet_snd now gc _ hnd,
        storeLookup_cacheGet_snd now gc _ hnd⟩
    · exact absurd hv (hfail v)
  · intro env now dc origin destination mode hnd hfail
    rcases getDistance_cache_cases env now dc origin destination mode with h | ⟨dp, hdp⟩
    · rw [h]
      exact ⟨viewAt_cacheGet_snd now dc _ hnd,
        storeLookup_cacheGet_snd now dc _ hnd⟩
    · exact absurd hdp (hfail dp)

theorem C9_witness :
    (∀ k, viewAt 0 ((geocodeCandidate c4Env 0 [] "query").2.1) k =
      viewAt 0 ([] : Store Coordinates) k) ∧
    (∀ k, viewAt 0 ((getDistanceWithTraffic c4Env 0 [] ⟨0, 0⟩ ⟨1, 1⟩
        TravelMode.driving).2.1) k = viewAt 0 ([] : Store DistancePoint) k) := by
  constructor
  · refine (C9_no_failure_caching.1 c4Env 0 [] "query" (by simp [storeKeys]) ?_).1
    intro v h
    rw [show (geocodeCandidate c4Env 0 [] "query").1 = Except.error "offline" from rfl] at h
    exact Except.noConfusion h
  · refine (C9_no_failure_caching.2 c4Env 0 [] ⟨0, 0⟩ ⟨1, 1⟩ TravelMode.driving
      (by simp [storeKeys]) ?_).1
    intro dp h
    rw [show (getDistanceWithTraffic c4Env 0 [] ⟨0, 0⟩ ⟨1, 1⟩ TravelMode.driving).1 =
      Except.error "offline" from rfl] at h
    exact Except.noConfusion h

/-! ## C6 -/

/-- C6: in the geocoding fallback loop, a `ZERO_RESULTS` outcome makes
resolution continue to the next candidate; any other non-`OK` status makes
the failure (carrying the provider's error message) propagate immediately
with no further candidate tried; a successful geocode returns its
coordinates immediately; and exhausting every candidate yields absent. -/
theorem C6_fallback_loop (env : ProviderEnv) (now : Nat) (k : String)
    (z b g : String) (pz pb pg : GeocodeResponse) (v : Coordinates) (m : String)
    (hkey : env.apiKey = some k)
    (hz : env.geocode z = Except.ok pz) (hzs : pz.status = "ZERO_RESULTS")
    (hb : env.geocode b = Except.ok pb)
    (hbs1 : pb.status ≠ "ZERO_RESULTS") (hbs2 : pb.status ≠ "OK")
    (hbm : pb.error_message = some m) (hm : m ≠ "")
    (hg : env.geocode g = Except.ok pg) (hgs : pg.status = "OK")
    (hgl : extractLocation pg = some v) :
    ((geocodeLoop env now [] [z, g]).1 = Except.ok (some v) ∧
      (geocodeLoop env now [] [z, g]).2.2 = 2) ∧
    (geocodeLoop env now [] [z]).1 = Except.ok none ∧
    ((geocodeLoop env now [] [b, g]).1 = Except.error m ∧
      (geocodeLoop env now [] [b, g]).2.2 = 1) ∧
    ((geocodeLoop env now [] [g, b]).1 = Except.ok (some v) ∧
      (geocodeLoop env now [] [g, b]).2.2 = 1) := by
  have hzc : geocodeCandidate env now [] z = (Except.ok none, [], 1) := by
    simp [geocodeCandidate, cacheGet, storeLookup, hkey, hz, hzs]
  have hbc : geocodeCandidate env now [] b = (Except.error m, [], 1) := by
    simp [geocodeCandidate, cacheGet, storeLookup, hkey, hb, hbs1, hbs2,
      jsOr, hbm, hm]
  have hgc : geocodeCandidate env now [] g =
      (Except.ok (some v), cacheSet now geocodeTtl [] (jsToLower g) v none, 1) := by
    simp [geocodeCandidate, cacheGet, storeLookup, hkey, hg, hgs, hgl]
  refine ⟨⟨?_, ?_⟩, ?_, ⟨?_, ?_⟩, ⟨?_, ?_⟩⟩ <;>
    simp [geocodeLoop, hzc, hbc, hgc]

theorem C6_witness :
    (geocodeLoop c6Env 0 [] ["zero", "good"]).1 = Except.ok (some ⟨1, 2⟩) ∧
    (geocodeLoop c6Env 0 [] ["zero"]).1 = Except.ok none ∧
    (geocodeLoop c6Env 0 [] ["bad", "good"]).1 = Except.error "denied" ∧
    (geocodeLoop c6Env 0 [] ["bad", "good"]).2.2 = 1 := by
  have h := C6_fallback_loop c6Env 0 "key" "zero" "bad" "good"
    ⟨"ZERO_RESULTS", none, []⟩ ⟨"REQUEST_DENIED", some "denied", []⟩ okPayload
    ⟨1, 2⟩ "denied" rfl rfl rfl rfl (by decide) (by decide) rfl (by decide)
    rfl rfl rfl
  exact ⟨h.1.1, h.2.1, h.2.2.1.1, h.2.2.1.2⟩

/-! ## C4 -/

/-- C4: if any parse candidate (the expanded URL or the trimmed original)
yields embedded coordinates, `resolveCoordinatesFromInput` returns the
first such coordinates immediately: the geocoding provider is never
invoked and the geocode cache is untouched. -/
theorem C4_literal_precedence (env : ProviderEnv) (now : Nat)
    (gc : Store Coordinates) (sc : Store String) (input : String) (c : Coordinates)
    (h : firstExtract (parseCandidatesOf (jsTrim input)
        (maybeExpandShortMapsUrl env now sc (jsTrim input)).1) = some c) :
    (resolveCoordinatesFromInput env now gc sc input).result = Except.ok (some c) ∧
    (resolveCoordinatesFromInput env now gc sc input).geocodeFetches = 0 ∧
    (resolveCoordinatesFromInput env now gc sc input).geoCache = gc := by
  simp only [resolveCoordinatesFromInput]
  rw [h]
  exact ⟨rfl, rfl, rfl⟩

theorem C4_witness :
    (resolveCoordinatesFromInput c4Env 0 [] []
      "https://maps.google.com/maps?q=40.7128,-74.0060").result =
        Except.ok (some ⟨Rat.divInt 407128 10000, Rat.divInt (-740060) 10000⟩) ∧
    (resolveCoordinatesFromInput c4Env 0 [] []
      "https://maps.google.com/maps?q=40.7128,-74.0060").geocodeFetches = 0 ∧
    (resolveCoordinatesFromInput c4Env 0 [] []
      "https://maps.google.com/maps?q=40.7128,-74.0060").geoCache = [] ∧
    Rat.divInt 407128 10000 = 40.7128 ∧ Rat.divInt (-740060) 10000 = -74.0060 := by
  have h := C4_literal_precedence c4Env 0 [] []
    "https://maps.google.com/maps?q=40.7128,-74.0060"
    ⟨Rat.divInt 407128 10000, Rat.divInt (-740060) 10000⟩ (by decide)
  refine ⟨h.1, h.2.1, h.2.2, ?_, ?_⟩ <;> rw [Rat.divInt_eq_div] <;> norm_num

/-! ## C1 -/

theorem candidateFold_mem (raw : List String) :
    ∀ unique : List String,
      (∀ s ∈ unique, parseLatLngPair s = none ∧ s ≠ "") →
      ∀ s ∈ candidateFold unique raw, parseLatLngPair s = none ∧ s ≠ "" := by
  induction raw with
  | nil => intro unique h s hs; exact h s hs
  | cons c rest ih =>
    intro unique h s hs
    simp only [candidateFold] at hs
    by_cases h1 : cleanCandidate c = ""
    · rw [if_pos h1] at hs; exact ih unique h s hs
    · rw [if_neg h1] at hs
      by_cases h2 : (parseLatLngPair (cleanCandidate c)).isSome = true
      · rw [if_pos h2] at hs; exact ih unique h s hs
      · rw [if_neg h2] at hs
        by_cases h3 : cleanCandidate c ∈ unique
        · rw [if_pos h3] at hs; exact ih unique h s hs
        · rw [if_neg h3] at hs
          refine ih (unique ++ [cleanCandidate c]) ?_ s hs
          intro t ht
          rcases List.mem_append.mp ht with h4 | h4
          · exact h t h4
          · have ht2 : t = cleanCandidate c := by simpa using h4
            subst ht2
            exact ⟨Option.not_isSome_iff_eq_none.mp h2, h1⟩

theorem candidateFold_nodup (raw : List String) :
    ∀ unique : List String, unique.Nodup → (candidateFold unique raw).Nodup := by
  induction raw with
  | nil => intro unique h; exact h
  | cons c rest ih =>
    intro unique h
    simp only [candidateFold]
    by_cases h1 : cleanCandidate c = ""
    · rw [if_pos h1]; exact ih unique h
    · rw [if_neg h1]
      by_cases h2 : (parseLatLngPair (cleanCandidate c)).isSome = true
      · rw [if_pos h2]; exact ih unique h
      · rw [if_neg h2]
        by_cases h3 : cleanCandidate c ∈ unique
        · rw [if_pos h3]; exact ih unique h
        · rw [if_neg h3]
          refine ih (unique ++ [cleanCandidate c]) ?_
          simp [List.nodup_append, h, h3]

/-- C1 counterexample: the non-URL input `"40.7,74.0"` (which itself
parses as a literal lat,lng pair) is returned verbatim as the sole
candidate, so for non-URL inputs the claimed filter does not hold. -/
theorem C1_counterexample :
    extractGeocodeCandidates "40.7,74.0" = ["40.7,74.0"] ∧
    parseLatLngPair "40.7,74.0" = some ⟨Rat.divInt 407 10, 74⟩ ∧
    Rat.divInt 407 10 = 40.7 := by
  refine ⟨by decide, by decide, ?_⟩
  rw [Rat.divInt_eq_div]; norm_num

/-- C1 (amended): `extractGeocodeCandidates` never returns duplicate
strings, and — for inputs that parse as a URL — never returns a candidate
that itself parses as a `lat,lng` pair (nor an empty candidate).  A
non-URL input is returned verbatim as the sole candidate, even when it
itself parses as a pair. -/
theorem C1_candidate_hygiene (input : String) :
    (extractGeocodeCandidates input).Nodup ∧
    (∀ u, parseURL (jsTrim input) = some u →
      ∀ s ∈ extractGeocodeCandidates input, parseLatLngPair s = none ∧ s ≠ "") := by
  by_cases h0 : jsTrim input = ""
  · constructor
    · simp [extractGeocodeCandidates, h0]
    · intro u hu s hs
      simp [extractGeocodeCandidates, h0] at hs
  · cases hurl : parseURL (jsTrim input) with
    | none =>
      constructor
      · simp [extractGeocodeCandidates, h0, hurl]
      · intro u hu
        exact absurd hu (by simp)

    | some url =>
      have hred : extractGeocodeCandidates input =
          candidateFold [] (rawCandidatesOf (jsTrim input) url) := by
        simp [extractGeocodeCandidates, h0, hurl]
      constructor
      · rw [hred]
        exact candidateFold_nodup _ [] List.nodup_nil
      · intro u hu s hs
        rw [hred] at hs
        exact candidateFold_mem _ [] (by simp) s hs

theorem C1_witness :
    (extractGeocodeCandidates "https://maps.google.com/maps?q=Eiffel+Tower").Nodup ∧
    ∀ s ∈ extractGeocodeCandidates "https://maps.google.com/maps?q=Eiffel+Tower",
      parseLatLngPair s = none ∧ s ≠ "" :=
  ⟨(C1_candidate_hygiene "https://maps.google.com/maps?q=Eiffel+Tower").1,
   fun s hs => (C1_candidate_hygiene "https://maps.google.com/maps?q=Eiffel+Tower").2
     ⟨"https", "maps.google.com", "/maps", "q=Eiffel+Tower"⟩ (by decide) s hs⟩

/-! ## C8 -/

theorem takeDigits_append (ds rest : List Char)
    (h1 : ∀ c ∈ ds, isDigitC c = true)
    (h2 : ∀ c t, rest = c :: t → isDigitC c = false) :
    takeDigits (ds ++ rest) = (ds, rest) := by
  induction ds with
  | nil =>
    cases rest with
    | nil => rfl
    | cons c t => simp [takeDigits, h2 c t rfl]
  | cons c cs ih =>
    have hc : isDigitC c = true := h1 c (by simp)
    have ihr := ih (fun x hx => h1 x (by simp [hx]))
    simp [takeDigits, hc, ihr]

theorem jsNumberCore_render (d : DecLit) (h : d.WF) :
    jsNumberCore d.render.data = some d.val := by
  obtain ⟨hne, hint, hfrac⟩ := h
  have hdata : d.render.data =
      (if d.neg then ['-'] else []) ++ d.intDs ++
        (if d.frac = [] then [] else '.' :: d.frac) := rfl
  have hsign : jsSplitSign d.render.data =
      (d.neg, d.intDs ++ (if d.frac = [] then [] else '.' :: d.frac)) := by
    rw [hdata]
    cases hn : d.neg with
    | true => simp [jsSplitSign]
    | false =>
      cases hi : d.intDs with
      | nil => exact absurd hi hne
      | cons c cs =>
        have hc : isDigitC c = true := by
          rw [hi] at hint; exact hint c (by simp)
        have hcne : ¬ c = '-' := by
          intro hcc
          rw [hcc] at hc
          exact absurd hc (by decide)
        simp [jsSplitSign, hcne]
  have hint2 : takeDigits (d.intDs ++ (if d.frac = [] then [] else '.' :: d.frac)) =
      (d.intDs, if d.frac = [] then [] else '.' :: d.frac) := by
    refine takeDigits_append d.intDs _ hint ?_
    intro c t hct
    cases hf : d.frac with
    | nil => rw [hf] at hct; simp at hct
    | cons f fs =>
      rw [hf] at hct
      simp at hct
      rw [← hct.1]
      decide
  simp only [jsNumberCore, hsign, hint2]
  rw [if_neg hne]
  cases hf : d.frac with
  | nil =>
    show some (ratOfParts d.neg d.intDs []) = some d.val
    unfold DecLit.val
    rw [hf]
  | cons f fs =>
    have hfne : ¬ (f :: fs : List Char) = [] := by simp
    have hfd : takeDigits (f :: fs) = (f :: fs, []) := by
      have hh := takeDigits_append (f :: fs) []
        (by rw [hf] at hfrac; exact hfrac)
        (by intro c t hct; simp at hct)
      simpa using hh
    simp only [if_neg hfne, hfd]
    show some (ratOfParts d.neg d.intDs (f :: fs)) = some d.val
    unfold DecLit.val
    rw [hf]

/-- C8: round-trip.  For a latitude and a longitude written in plain
decimal notation with in-range values, any reference string whose first
`@`-pattern occurrence captures exactly those two literals extracts to
exactly that pair (the `@` pattern has first priority, so this holds even
for URL inputs). -/
theorem C8_roundtrip (s : String) (la ln : DecLit) (hla : la.WF) (hln : ln.WF)
    (hscan : scanAt (jsTrim s).data = some (la.render.data, ln.render.data))
    (h1 : -90 ≤ la.val) (h2 : la.val ≤ 90)
    (h3 : -180 ≤ ln.val) (h4 : ln.val ≤ 180) :
    extractCoordinatesFromGoogleMapsUrl s = some ⟨la.val, ln.val⟩ := by
  have hnum1 : jsNumber la.render = some la.val := jsNumberCore_render la hla
  have hnum2 : jsNumber ln.render = some ln.val := jsNumberCore_render ln hln
  have hvalid : isValidCoordinates la.val ln.val = true := by
    simp only [isValidCoordinates, decide_eq_true_eq]
    exact ⟨h1, h2, h3, h4⟩
  have htc : toCoordinates la.render ln.render = some ⟨la.val, ln.val⟩ := by
    simp [toCoordinates, hnum1, hnum2, hvalid]
  have hmk1 : String.mk la.render.data = la.render := rfl
  have hmk2 : String.mk ln.render.data = ln.render := rfl
  simp only [extractCoordinatesFromGoogleMapsUrl, hscan, hmk1, hmk2, htc]

theorem C8_witness :
    extractCoordinatesFromGoogleMapsUrl
        "https://www.google.com/maps/@40.7128,-74.006,12z" =
      some ⟨DecLit.val ⟨false, ['4', '0'], ['7', '1', '2', '8']⟩,
            DecLit.val ⟨true, ['7', '4'], ['0', '0', '6']⟩⟩ ∧
    DecLit.val ⟨false, ['4', '0'], ['7', '1', '2', '8']⟩ = 40.7128 ∧
    DecLit.val ⟨true, ['7', '4'], ['0', '0', '6']⟩ = -74.006 := by
  have hv1 : DecLit.val ⟨false, ['4', '0'], ['7', '1', '2', '8']⟩ =
      Rat.divInt 407128 10000 := by decide
  have hv2 : DecLit.val ⟨true, ['7', '4'], ['0', '0', '6']⟩ =
      Rat.divInt (-74006) 1000 := by decide
  refine ⟨?_, ?_, ?_⟩
  · exact C8_roundtrip "https://www.google.com/maps/@40.7128,-74.006,12z"
      ⟨false, ['4', '0'], ['7', '1', '2', '8']⟩ ⟨true, ['7', '4'], ['0', '0', '6']⟩
      (by refine ⟨by decide, by decide, by decide⟩) (by refine ⟨by decide, by decide, by decide⟩)
      (by decide) (by decide) (by decide) (by decide) (by decide)
  · rw [hv1, Rat.divInt_eq_div]; norm_num
  · rw [hv2, Rat.divInt_eq_div]; norm_num

end Clubcourt
